import Mathlib

/-!
Verification of the rate-limiting core of the NLP_Earnings_Call repository:
a shallow embedding of `src/utils/ratelimit_utils.py` (the `RateLimit`
decorator class and the `sleep_and_retry` wrapper) together with the
rejection signal of `src/utils/exception.py` (`RateLimitException`, which
carries `time_remaining`).

Modelling conventions:
- Clock readings (`time.monotonic()` values) are rationals `ℚ`; the source
  uses Python floats, but every claim is about ordered-field arithmetic on
  times, which `ℚ` captures exactly.
- Python integers (`calls`, `num_calls`) are `ℤ`.
- The wrapper body reads the clock twice: once at the top (for `elapsed`)
  and once more when resetting (`self.last_reset = self.clock()`).  The two
  readings are passed explicitly as `now` and `resetNow`.
- The whole read-modify-write of the wrapper body runs inside
  `with self.lock:`, so each invocation of the body is one atomic critical
  section; concurrent executions are therefore modelled as arbitrary
  sequences of atomic steps (arbitrary interleavings of serialized bodies).
- A raised `RateLimitException(period_remaining)` is the `rejected` /
  `rateLimitExn` constructor carrying the `time_remaining` payload; the bare
  `return` (Python `None`) taken when `raise_on_limit` is false is the
  `swallowed` / `noneRet` constructor.
- The decorated function `func` either returns a value or raises a domain
  error; it is modelled as an `Except ε α` describing the outcome of one
  invocation.
-/

/-- Mutable state of one `RateLimit` decorator instance, as set up by
`RateLimit.__init__` in `src/utils/ratelimit_utils.py`: the configuration
fields `calls`, `interval`, `raise_on_limit` and the window state
`last_reset`, `num_calls`.  The `clock` attribute is modelled by passing
clock readings explicitly; the `lock` attribute is modelled by treating the
wrapper body as one atomic step. -/
structure RateLimit where
  calls : ℤ
  interval : ℚ
  raise_on_limit : Bool
  last_reset : ℚ
  num_calls : ℤ
deriving Repr, DecidableEq

/-- State built by `RateLimit.__init__(calls, interval, raise_on_limit)`
when the constructor runs at clock reading `now`: `last_reset = now`,
`num_calls = 0`. -/
def RateLimit.init (calls : ℤ) (interval : ℚ) (raise_on_limit : Bool)
    (now : ℚ) : RateLimit :=
  { calls := calls, interval := interval, raise_on_limit := raise_on_limit,
    last_reset := now, num_calls := 0 }

/-- Outcome of the lock-protected body of `wrapper`: proceed to call
`func` (`admitted`), `raise RateLimitException(period_remaining)`
(`rejected`), or bare `return` of `None` (`swallowed`). -/
inductive AdmitDecision where
  | admitted : AdmitDecision
  | rejected (time_remaining : ℚ) : AdmitDecision
  | swallowed : AdmitDecision
deriving Repr, DecidableEq

/-- Boolean test for the `admitted` decision. -/
def AdmitDecision.isAdmitted : AdmitDecision → Bool
  | .admitted => true
  | _ => false

/-- The `with self.lock:` block of `RateLimit.__call__.wrapper`
(src/utils/ratelimit_utils.py lines 97-117), as one atomic step:
compute `elapsed = clock() - last_reset` and
`period_remaining = interval - elapsed`; if `period_remaining <= 0`
reset `num_calls` to 0 and `last_reset` to a fresh clock reading
(`resetNow`); increment `num_calls`; if `num_calls > calls` then either
raise `RateLimitException(period_remaining)` (when `raise_on_limit`) or
return `None`; otherwise fall through to calling `func`. -/
def RateLimit.wrapperCritical (s : RateLimit) (now resetNow : ℚ) :
    AdmitDecision × RateLimit :=
  let elapsed := now - s.last_reset
  let period_remaining := s.interval - elapsed
  let s1 := if period_remaining ≤ 0 then
    { s with num_calls := 0, last_reset := resetNow } else s
  let s2 := { s1 with num_calls := s1.num_calls + 1 }
  if s2.num_calls > s2.calls then
    if s2.raise_on_limit then (.rejected period_remaining, s2)
    else (.swallowed, s2)
  else (.admitted, s2)

/-- Observable outcome of one invocation of the decorated function:
it returned a value, returned `None` without running `func`, raised
`RateLimitException(time_remaining)`, or propagated a domain error raised
by `func` itself. -/
inductive GateOutcome (ε α : Type) where
  | value (a : α) : GateOutcome ε α
  | noneRet : GateOutcome ε α
  | rateLimitExn (time_remaining : ℚ) : GateOutcome ε α
  | opError (e : ε) : GateOutcome ε α

/-- Boolean test for the `rateLimitExn` outcome. -/
def GateOutcome.isRateLimitExn {ε α : Type} : GateOutcome ε α → Bool
  | .rateLimitExn _ => true
  | _ => false

/-- Full body of `RateLimit.__call__.wrapper`: run the lock-protected
block, and on fall-through execute `return func(*args, **kargs)` — the
decorated function's own result or domain error propagates unchanged. -/
def RateLimit.wrapper {ε α : Type} (s : RateLimit) (now resetNow : ℚ)
    (func : Except ε α) : GateOutcome ε α × RateLimit :=
  match s.wrapperCritical now resetNow with
  | (.admitted, s2) =>
    match func with
    | .ok a => (.value a, s2)
    | .error e => (.opError e, s2)
  | (.rejected t, s2) => (.rateLimitExn t, s2)
  | (.swallowed, s2) => (.noneRet, s2)

/-- Sequence of admission attempts against one shared `RateLimit` state:
each list entry is the pair of clock readings (`now`, `resetNow`) of one
atomic execution of the lock-protected wrapper body, state threaded
through. -/
def RateLimit.runCritical (s : RateLimit) :
    List (ℚ × ℚ) → List AdmitDecision × RateLimit
  | [] => ([], s)
  | p :: ps =>
    let r := s.wrapperCritical p.1 p.2
    let rest := r.2.runCritical ps
    (r.1 :: rest.1, rest.2)

/-- The `while True` loop of `sleep_and_retry.wrapper`
(src/utils/ratelimit_utils.py lines 138-164), fuel-indexed so the
unbounded loop is total: `f n` is the outcome of the n-th invocation of
the decorated function; on `rateLimitExn t` the loop sleeps for
`exception.time_remaining` (recorded in the returned list, in order) and
retries; any other outcome is returned to the caller unchanged.  The
result is `none` when the loop is still running after `fuel` iterations. -/
def sleep_and_retry {ε α : Type} (f : ℕ → GateOutcome ε α) :
    ℕ → List ℚ × Option (GateOutcome ε α)
  | 0 => ([], none)
  | fuel + 1 =>
    match f 0 with
    | .rateLimitExn t =>
      let r := sleep_and_retry (fun n => f (n + 1)) fuel
      (t :: r.1, r.2)
    | o => ([], some o)

/-- State of a `RateLimit` instance after `n` invocations of its wrapped
function, when the i-th invocation runs its critical section at the clock
readings `times i`. -/
def gateStateAt (s : RateLimit) (times : ℕ → ℚ × ℚ) : ℕ → RateLimit
  | 0 => s
  | n + 1 =>
    ((gateStateAt s times n).wrapperCritical (times n).1 (times n).2).2

/-- Outcome of the n-th invocation of a `RateLimit`-decorated function
`func`, for the composition `sleep_and_retry(RateLimit(...)(func))`:
the wrapper runs on the state left by the previous invocations. -/
def gateOutcomeAt {ε α : Type} (s : RateLimit) (times : ℕ → ℚ × ℚ)
    (func : Except ε α) (n : ℕ) : GateOutcome ε α :=
  ((gateStateAt s times n).wrapper (times n).1 (times n).2 func).1

/-- Field values of a freshly constructed limiter. -/
theorem init_calls (c : ℤ) (i : ℚ) (r : Bool) (n : ℚ) :
    (RateLimit.init c i r n).calls = c := rfl

/-- Window length of a freshly constructed limiter. -/
theorem init_interval (c : ℤ) (i : ℚ) (r : Bool) (n : ℚ) :
    (RateLimit.init c i r n).interval = i := rfl

/-- Signalling mode of a freshly constructed limiter. -/
theorem init_raise_on_limit (c : ℤ) (i : ℚ) (r : Bool) (n : ℚ) :
    (RateLimit.init c i r n).raise_on_limit = r := rfl

/-- Window start of a freshly constructed limiter. -/
theorem init_last_reset (c : ℤ) (i : ℚ) (r : Bool) (n : ℚ) :
    (RateLimit.init c i r n).last_reset = n := rfl

/-- Call counter of a freshly constructed limiter starts at zero. -/
theorem init_num_calls (c : ℤ) (i : ℚ) (r : Bool) (n : ℚ) :
    (RateLimit.init c i r n).num_calls = 0 := rfl

/-- Characterization of one critical section when the attempt occurs before
the window elapses (`period_remaining > 0`): no reset, `num_calls` is
incremented, and rejection carries `interval - elapsed`. -/
theorem wrapperCritical_of_in_window (s : RateLimit) (now resetNow : ℚ)
    (h : now - s.last_reset < s.interval) :
    s.wrapperCritical now resetNow =
      (if s.num_calls + 1 > s.calls then
        (if s.raise_on_limit then
          AdmitDecision.rejected (s.interval - (now - s.last_reset))
         else .swallowed)
       else .admitted,
       { s with num_calls := s.num_calls + 1 }) := by
  have h0 : ¬ (s.interval - (now - s.last_reset) ≤ 0) := by linarith
  simp only [RateLimit.wrapperCritical, if_neg h0]
  split_ifs <;> rfl

/-- Characterization of one critical section when the window has elapsed
(`period_remaining <= 0`): the state is reset (`num_calls` lands at 1,
`last_reset` takes the fresh clock reading), and any rejection still
carries the `period_remaining` computed before the reset. -/
theorem wrapperCritical_of_elapsed (s : RateLimit) (now resetNow : ℚ)
    (h : s.interval ≤ now - s.last_reset) :
    s.wrapperCritical now resetNow =
      (if 1 > s.calls then
        (if s.raise_on_limit then
          AdmitDecision.rejected (s.interval - (now - s.last_reset))
         else .swallowed)
       else .admitted,
       { s with num_calls := 1, last_reset := resetNow }) := by
  have h0 : s.interval - (now - s.last_reset) ≤ 0 := by linarith
  simp only [RateLimit.wrapperCritical, if_pos h0]
  norm_num
  split_ifs <;> rfl

/-- Swallowing case of the full wrapper: with `raise_on_limit = false` and
the limit exhausted inside the window, the wrapper returns `None` without
running `func`, and only `num_calls` changes. -/
theorem wrapper_swallow {ε α : Type} (s : RateLimit) (now resetNow : ℚ)
    (func : Except ε α) (hr : s.raise_on_limit = false)
    (hex : s.num_calls + 1 > s.calls)
    (hwin : now - s.last_reset < s.interval) :
    s.wrapper now resetNow func =
      (.noneRet, { s with num_calls := s.num_calls + 1 }) := by
  unfold RateLimit.wrapper
  rw [wrapperCritical_of_in_window s now resetNow hwin]
  simp [hr, hex]

/-- Frame property of the critical section: the configuration fields are
untouched by one execution of the lock-protected body. -/
theorem wrapperCritical_frame (s : RateLimit) (now resetNow : ℚ) :
    (s.wrapperCritical now resetNow).2.calls = s.calls ∧
    (s.wrapperCritical now resetNow).2.interval = s.interval ∧
    (s.wrapperCritical now resetNow).2.raise_on_limit = s.raise_on_limit := by
  rcases lt_or_le (now - s.last_reset) s.interval with h | h
  · rw [wrapperCritical_of_in_window s now resetNow h]
    exact ⟨rfl, rfl, rfl⟩
  · rw [wrapperCritical_of_elapsed s now resetNow h]
    exact ⟨rfl, rfl, rfl⟩

/-- C4: `num_calls` is incremented by exactly one on every attempt that
occurs before the window elapses — including rejected and swallowed
attempts, which do not undo the increment — and the window state
(`last_reset`) is then untouched; `num_calls` is reset only by an attempt
occurring after `windowDuration` has elapsed, and such an attempt (for
`calls >= 1`) is always admitted and leaves `num_calls` at exactly 1,
regardless of how many rejected attempts inflated the counter in the
previous window. -/
theorem C4_callCount_increment_and_reset (s : RateLimit) (now resetNow : ℚ)
    (hm : 1 ≤ s.calls) :
    (now - s.last_reset < s.interval →
      (s.wrapperCritical now resetNow).2.num_calls = s.num_calls + 1 ∧
      (s.wrapperCritical now resetNow).2.last_reset = s.last_reset)
    ∧ (s.interval ≤ now - s.last_reset →
      (s.wrapperCritical now resetNow).1 = .admitted ∧
      (s.wrapperCritical now resetNow).2.num_calls = 1 ∧
      (s.wrapperCritical now resetNow).2.last_reset = resetNow) := by
  constructor
  · intro h
    rw [wrapperCritical_of_in_window s now resetNow h]
    exact ⟨rfl, rfl⟩
  · intro h
    rw [wrapperCritical_of_elapsed s now resetNow h]
    have h1 : ¬ ((1 : ℤ) > s.calls) := by omega
    simp [h1]

/-- Witness for C4: `calls = 2`, `interval = 10`, fresh at `t0 = 0` but with
5 attempts already counted; the attempt at `t = 12` is past the window,
is admitted, and lands the counter back at exactly 1. -/
theorem C4_witness :
    ((⟨2, 10, true, 0, 5⟩ : RateLimit).wrapperCritical 12 12).1 = .admitted ∧
    ((⟨2, 10, true, 0, 5⟩ : RateLimit).wrapperCritical 12 12).2.num_calls = 1 ∧
    ((⟨2, 10, true, 0, 5⟩ : RateLimit).wrapperCritical 12 12).2.last_reset = 12 :=
  (C4_callCount_increment_and_reset ⟨2, 10, true, 0, 5⟩ 12 12 (by decide)).2
    (by simp; decide)

/-- C6: with `raise_on_limit = false`, an exhausted attempt inside the
window returns `None`: no `RateLimitException` is raised, the wrapped
function is not executed (the outcome does not depend on `func` at all),
and the caller gets no result. -/
theorem C6_raise_off_silently_swallows {ε α : Type} (s : RateLimit)
    (now resetNow : ℚ) (func func2 : Except ε α)
    (hr : s.raise_on_limit = false)
    (hex : s.num_calls + 1 > s.calls)
    (hwin : now - s.last_reset < s.interval) :
    (s.wrapper now resetNow func).1 = .noneRet ∧
    s.wrapper now resetNow func = s.wrapper now resetNow func2 := by
  rw [wrapper_swallow s now resetNow func hr hex hwin,
      wrapper_swallow s now resetNow func2 hr hex hwin]
  exact ⟨rfl, rfl⟩

/-- Witness for C6: one call already used of `calls = 1` with
`raise_on_limit = false`; the next in-window attempt yields `None` whether
the wrapped function would return `Except.ok 0` or `Except.error 1`. -/
theorem C6_witness :
    ((⟨1, 10, false, 0, 1⟩ : RateLimit).wrapper 3 3
      (Except.ok 0 : Except ℕ ℕ)).1 = .noneRet ∧
    (⟨1, 10, false, 0, 1⟩ : RateLimit).wrapper 3 3
      (Except.ok 0 : Except ℕ ℕ) =
    (⟨1, 10, false, 0, 1⟩ : RateLimit).wrapper 3 3
      (Except.error 1 : Except ℕ ℕ) :=
  C6_raise_off_silently_swallows ⟨1, 10, false, 0, 1⟩ 3 3
    (Except.ok 0) (Except.error 1) rfl (by decide) (by simp; decide)

/-- C8: every wrapper invocation — admitting, rejecting, or swallowing —
leaves the configuration fields `calls`, `interval` and `raise_on_limit`
unchanged; only `last_reset` and `num_calls` can change.  The `clock`
attribute is never reassigned either: in the model the clock is an
external input, matching the source, which only calls `self.clock()` and
never writes the attribute. -/
theorem C8_config_fields_unchanged {ε α : Type} (s : RateLimit)
    (now resetNow : ℚ) (func : Except ε α) :
    (s.wrapper now resetNow func).2.calls = s.calls ∧
    (s.wrapper now resetNow func).2.interval = s.interval ∧
    (s.wrapper now resetNow func).2.raise_on_limit = s.raise_on_limit := by
  have hf := wrapperCritical_frame s now resetNow
  unfold RateLimit.wrapper
  rcases hc : s.wrapperCritical now resetNow with ⟨d, s2⟩
  rw [hc] at hf
  cases d with
  | admitted => cases func <;> exact hf
  | rejected t => exact hf
  | swallowed => exact hf

/-- C9: with `calls = 0` (violating the positive-integer precondition) and
the default `raise_on_limit = true`, every attempt is rejected; an attempt
arriving after the window has elapsed still performs the reset (the
counter lands at 1 after the increment, `last_reset` takes the fresh clock
reading) but is rejected with a `time_remaining` computed before the
reset, which is non-positive; a `sleep_and_retry` gate around such a
limiter therefore passes that non-positive duration to the sleep
primitive. -/
theorem C9_zero_maxCalls {ε α : Type} (s : RateLimit) (now resetNow : ℚ)
    (times : ℕ → ℚ × ℚ) (func : Except ε α)
    (hc : s.calls = 0) (hr : s.raise_on_limit = true)
    (hn : 0 ≤ s.num_calls) :
    (∃ t, (s.wrapperCritical now resetNow).1 = .rejected t) ∧
    (s.interval ≤ now - s.last_reset →
      s.wrapperCritical now resetNow =
        (.rejected (s.interval - (now - s.last_reset)),
         { s with num_calls := 1, last_reset := resetNow }) ∧
      s.interval - (now - s.last_reset) ≤ 0) ∧
    (s.interval ≤ (times 0).1 - s.last_reset →
      (sleep_and_retry (gateOutcomeAt s times func) 1).1 =
        [s.interval - ((times 0).1 - s.last_reset)]) := by
  refine ⟨?_, ?_, ?_⟩
  · rcases lt_or_le (now - s.last_reset) s.interval with h | h
    · rw [wrapperCritical_of_in_window s now resetNow h]
      have hx : s.num_calls + 1 > s.calls := by omega
      simp [hx, hr]
    · rw [wrapperCritical_of_elapsed s now resetNow h]
      have hx : (1 : ℤ) > s.calls := by omega
      simp [hx, hr]
  · intro h
    rw [wrapperCritical_of_elapsed s now resetNow h]
    have hx : (1 : ℤ) > s.calls := by omega
    refine ⟨?_, by linarith⟩
    simp [hx, hr]
  · intro h
    have h0 : gateOutcomeAt s times func 0 =
        .rateLimitExn (s.interval - ((times 0).1 - s.last_reset)) := by
      simp only [gateOutcomeAt, gateStateAt, RateLimit.wrapper]
      rw [wrapperCritical_of_elapsed s (times 0).1 (times 0).2 h]
      have hx : (1 : ℤ) > s.calls := by omega
      simp [hx, hr]
    simp [sleep_and_retry, h0]

/-- Witness for C9: `calls = 0`, `interval = 5`, window started at 0; the
attempt at `t = 7` resets the window (`last_reset = 7`, counter 1) yet is
rejected, carrying `5 - (7 - 0) = -2 <= 0`. -/
theorem C9_witness :
    (⟨0, 5, true, 0, 0⟩ : RateLimit).wrapperCritical 7 7 =
      (.rejected ((5 : ℚ) - (7 - 0)), ⟨0, 5, true, 7, 1⟩) ∧
    (5 : ℚ) - (7 - 0) ≤ 0 :=
  (C9_zero_maxCalls (⟨0, 5, true, 0, 0⟩ : RateLimit) 7 7 (fun _ => (7, 7))
    (Except.ok 0 : Except ℕ ℕ) rfl rfl (by decide)).2.1 (by simp; decide)

/-- Length of a trace of admission attempts: one decision per attempt. -/
theorem runCritical_length (s : RateLimit) (ts : List (ℚ × ℚ)) :
    (s.runCritical ts).1.length = ts.length := by
  induction ts generalizing s with
  | nil => rfl
  | cons p ps ih => simp [RateLimit.runCritical, ih]

/-- Closed form of a trace in which every attempt occurs before the window
elapses: no reset ever fires, so the i-th attempt sees counter value
`num_calls + i`, is admitted exactly when `num_calls + i + 1 <= calls`,
and otherwise is rejected (or swallowed) with `interval - (now_i -
last_reset)` as the remaining time. -/
theorem runCritical_get?_of_in_window (s : RateLimit) (ts : List (ℚ × ℚ))
    (hw : ∀ p ∈ ts, p.1 - s.last_reset < s.interval) (i : ℕ) :
    (s.runCritical ts).1.get? i =
      (ts.get? i).map (fun p =>
        if s.num_calls + (i : ℤ) + 1 > s.calls then
          (if s.raise_on_limit then
            AdmitDecision.rejected (s.interval - (p.1 - s.last_reset))
           else .swallowed)
        else .admitted) := by
  induction ts generalizing s i with
  | nil => simp [RateLimit.runCritical]
  | cons p ps ih =>
    have hp : p.1 - s.last_reset < s.interval := hw p (by simp)
    simp only [RateLimit.runCritical]
    rw [wrapperCritical_of_in_window s p.1 p.2 hp]
    cases i with
    | zero => simp
    | succ j =>
      simp only [List.get?_cons_succ]
      rw [ih { s with num_calls := s.num_calls + 1 }
        (fun q hq => hw q (List.mem_cons_of_mem p hq)) j]
      cases hq : ps.get? j with
      | none => rfl
      | some q =>
        simp only [Option.map_some']
        congr 1
        refine if_congr ?_ rfl rfl
        push_cast
        constructor <;> intro <;> omega

/-- Number of admitted attempts in an in-window trace: the window capacity
left at the start (`calls - num_calls`, clamped at 0) capped by the number
of attempts. -/
theorem runCritical_countP_admitted (s : RateLimit) (ts : List (ℚ × ℚ))
    (hw : ∀ p ∈ ts, p.1 - s.last_reset < s.interval) :
    ((s.runCritical ts).1.countP (fun d => d.isAdmitted)) =
      (min (s.calls - s.num_calls) (ts.length : ℤ)).toNat := by
  induction ts generalizing s with
  | nil =>
    simp only [RateLimit.runCritical, List.countP_nil, List.length_nil,
      Nat.cast_zero]
    omega
  | cons p ps ih =>
    have hp : p.1 - s.last_reset < s.interval := hw p (by simp)
    simp only [RateLimit.runCritical]
    rw [wrapperCritical_of_in_window s p.1 p.2 hp]
    have ih2 := ih { s with num_calls := s.num_calls + 1 }
      (fun q hq => hw q (List.mem_cons_of_mem p hq))
    by_cases hcond : s.num_calls + 1 > s.calls
    · simp only [if_pos hcond, List.countP_cons]
      rw [ih2]
      cases hrb : s.raise_on_limit <;>
        simp [AdmitDecision.isAdmitted] <;> omega
    · simp only [if_neg hcond, List.countP_cons]
      rw [ih2]
      simp [AdmitDecision.isAdmitted]
      omega

/-- C1: for a limiter built with `maxCalls = m >= 1` and positive window,
over any trace of attempts that all occur before the window elapses, the
i-th attempt (0-based) is admitted exactly when it is among the first `m`
attempts (`i + 1 <= m`), and every later attempt is rejected — so the
(`m`+1)-th request is the first one rejected, never the `m`-th. -/
theorem C1_first_maxCalls_admitted (m : ℤ) (interval t0 : ℚ)
    (ts : List (ℚ × ℚ)) (hm : 1 ≤ m) (hI : 0 < interval)
    (hw : ∀ p ∈ ts, p.1 - t0 < interval) (i : ℕ) (hi : i < ts.length) :
    (((RateLimit.init m interval true t0).runCritical ts).1.get? i =
        some .admitted ↔ (i : ℤ) + 1 ≤ m) ∧
    (m < (i : ℤ) + 1 →
      ∃ t, ((RateLimit.init m interval true t0).runCritical ts).1.get? i =
        some (.rejected t)) := by
  have hg := runCritical_get?_of_in_window (RateLimit.init m interval true t0)
    ts hw i
  rw [List.get?_eq_get hi] at hg
  simp only [init_calls, init_interval, init_raise_on_limit, init_last_reset,
    init_num_calls, Option.map_some'] at hg
  constructor
  · rw [hg]
    by_cases hcm : (0 : ℤ) + ↑i + 1 > m <;> simp [hcm]
  · intro hlt
    have hcm : (0 : ℤ) + ↑i + 1 > m := by omega
    refine ⟨interval - ((ts.get ⟨i, hi⟩).1 - t0), ?_⟩
    rw [hg]
    simp [hcm, hlt]

/-- Witness for C1: `maxCalls = 2`, `interval = 10`, three simultaneous
attempts at `t = 0`; the third (index 2) is not admitted and is rejected. -/
theorem C1_witness :
    ((((RateLimit.init 2 10 true 0).runCritical
        [(0, 0), (0, 0), (0, 0)]).1.get? 2 = some .admitted ↔
      ((2 : ℕ) : ℤ) + 1 ≤ 2) ∧
     (2 < ((2 : ℕ) : ℤ) + 1 →
      ∃ t, (((RateLimit.init 2 10 true 0).runCritical
        [(0, 0), (0, 0), (0, 0)]).1.get? 2 = some (.rejected t)))) :=
  C1_first_maxCalls_admitted 2 10 0 [(0, 0), (0, 0), (0, 0)]
    (by decide) (by decide) (by simp) 2 (by decide)

/-- C3: in the same in-window setting, every attempt past the limit is
rejected with `time_remaining` exactly `interval - (now - last_reset)`,
where `now` is the clock reading taken at the start of that attempt and
`last_reset` is still the initial window start (no reset has fired). -/
theorem C3_rejection_carries_remaining (m : ℤ) (interval t0 : ℚ)
    (ts : List (ℚ × ℚ)) (hw : ∀ p ∈ ts, p.1 - t0 < interval)
    (i : ℕ) (hi : i < ts.length) (hK : m < (i : ℤ) + 1) :
    ((RateLimit.init m interval true t0).runCritical ts).1.get? i =
      some (.rejected (interval - ((ts.get ⟨i, hi⟩).1 - t0))) := by
  have hg := runCritical_get?_of_in_window (RateLimit.init m interval true t0)
    ts hw i
  rw [List.get?_eq_get hi] at hg
  simp only [init_calls, init_interval, init_raise_on_limit, init_last_reset,
    init_num_calls, Option.map_some'] at hg
  rw [hg]
  have hcm : (0 : ℤ) + ↑i + 1 > m := by omega
  simp [hcm, hK]

/-- Witness for C3: `maxCalls = 2`, `interval = 10`, window start 0,
attempts at times 0, 0, 2; the third attempt (index 2, `K = 3 > 2`) is
rejected carrying `10 - (2 - 0)`. -/
theorem C3_witness :
    ((RateLimit.init 2 10 true 0).runCritical
      [(0, 0), (0, 0), (2, 2)]).1.get? 2 =
      some (.rejected (10 - ((([(0, 0), (0, 0), (2, 2)] :
        List (ℚ × ℚ)).get ⟨2, by decide⟩).1 - 0))) :=
  C3_rejection_carries_remaining 2 10 0 [(0, 0), (0, 0), (2, 2)]
    (by simp; decide) 2 (by decide) (by decide)

/-- Value of the admission test on each decision constructor. -/
theorem isAdmitted_admitted : AdmitDecision.admitted.isAdmitted = true := rfl

/-- Rejections are not admissions. -/
theorem isAdmitted_rejected (t : ℚ) :
    (AdmitDecision.rejected t).isAdmitted = false := rfl

/-- Swallowed attempts are not admissions. -/
theorem isAdmitted_swallowed :
    AdmitDecision.swallowed.isAdmitted = false := rfl

/-- Every decision is either an admission or not: the two counts always
sum to the trace length. -/
theorem countP_isAdmitted_split (l : List AdmitDecision) :
    l.countP (fun d => d.isAdmitted) + l.countP (fun d => !d.isAdmitted) =
      l.length := by
  induction l with
  | nil => rfl
  | cons d l ih =>
    rw [List.countP_cons, List.countP_cons, List.length_cons]
    cases d <;>
      simp [isAdmitted_admitted, isAdmitted_rejected, isAdmitted_swallowed] <;>
      omega

/-- C7: the source wraps the whole check-and-increment sequence in
`with self.lock:`, so racing threads execute whole critical sections in
some serialization order; modelling each section as one atomic step,
`maxCalls + M` attempts against a fresh limiter — in any interleaving
order, i.e. for every trace of that length inside the window — produce
exactly `maxCalls` admissions and `M` rejections: the boundary slot is
never granted twice. -/
theorem C7_no_double_grant (m M : ℤ) (interval t0 : ℚ)
    (ts : List (ℚ × ℚ)) (hm : 1 ≤ m) (hM : 1 ≤ M)
    (hlen : (ts.length : ℤ) = m + M)
    (hw : ∀ p ∈ ts, p.1 - t0 < interval) :
    ((RateLimit.init m interval true t0).runCritical ts).1.countP
        (fun d => d.isAdmitted) = m.toNat ∧
    ((RateLimit.init m interval true t0).runCritical ts).1.countP
        (fun d => !d.isAdmitted) = M.toNat := by
  have hc := runCritical_countP_admitted (RateLimit.init m interval true t0)
    ts hw
  simp only [init_calls, init_num_calls] at hc
  have hL := runCritical_length (RateLimit.init m interval true t0) ts
  have hs :=
    countP_isAdmitted_split ((RateLimit.init m interval true t0).runCritical ts).1
  constructor
  · rw [hc]; omega
  · omega

/-- Witness for C7: `maxCalls = 1`, `M = 1`: two simultaneous attempts at
`t = 0` against a fresh limiter give exactly one admission and one
rejection. -/
theorem C7_witness :
    ((RateLimit.init 1 10 true 0).runCritical [(0, 0), (0, 0)]).1.countP
        (fun d => d.isAdmitted) = (1 : ℤ).toNat ∧
    ((RateLimit.init 1 10 true 0).runCritical [(0, 0), (0, 0)]).1.countP
        (fun d => !d.isAdmitted) = (1 : ℤ).toNat :=
  C7_no_double_grant 1 1 10 0 [(0, 0), (0, 0)]
    (by decide) (by decide) (by decide) (by simp)

/-- The retry loop never returns a rate-limit outcome: the only exception
caught is `RateLimitException`, and catching it re-enters the loop, so any
outcome actually returned has a different shape. -/
theorem sleep_and_retry_result_not_rateLimit {ε α : Type}
    (f : ℕ → GateOutcome ε α) (fuel : ℕ) (o : GateOutcome ε α)
    (h : (sleep_and_retry f fuel).2 = some o) : o.isRateLimitExn = false := by
  induction fuel generalizing f with
  | zero => simp [sleep_and_retry] at h
  | succ n ih =>
    rw [sleep_and_retry] at h
    cases ho : f 0 with
    | value a =>
      rw [ho] at h
      obtain rfl : GateOutcome.value a = o := by simpa using h
      rfl
    | noneRet =>
      rw [ho] at h
      obtain rfl : (GateOutcome.noneRet : GateOutcome ε α) = o := by
        simpa using h
      rfl
    | opError e =>
      rw [ho] at h
      obtain rfl : GateOutcome.opError e = o := by simpa using h
      rfl
    | rateLimitExn t =>
      rw [ho] at h
      exact ih (fun n => f (n + 1)) h

/-- When the first `k` invocations are rate-limited and the (`k`+1)-th is
not, the loop sleeps exactly the `time_remaining` of each rejection in
order and returns the (`k`+1)-th outcome, provided the fuel covers the
`k` retries. -/
theorem sleep_and_retry_first_exit {ε α : Type} (k : ℕ) :
    ∀ (f : ℕ → GateOutcome ε α) (g : ℕ → ℚ),
      (∀ j < k, f j = .rateLimitExn (g j)) →
      (f k).isRateLimitExn = false →
      ∀ fuel, k < fuel →
      sleep_and_retry f fuel = ((List.range k).map g, some (f k)) := by
  induction k with
  | zero =>
    intro f g hrej hex fuel hf
    obtain ⟨n, rfl⟩ : ∃ n, fuel = n + 1 := ⟨fuel - 1, by omega⟩
    rw [sleep_and_retry]
    cases ho : f 0 with
    | rateLimitExn t =>
      rw [ho] at hex
      exact absurd hex (by simp [GateOutcome.isRateLimitExn])
    | value a => simp
    | noneRet => simp
    | opError e => simp
  | succ k ih =>
    intro f g hrej hex fuel hf
    obtain ⟨n, rfl⟩ : ∃ n, fuel = n + 1 := ⟨fuel - 1, by omega⟩
    rw [sleep_and_retry, hrej 0 (by omega)]
    have ih2 := ih (fun j => f (j + 1)) (fun j => g (j + 1))
      (fun j hj => hrej (j + 1) (by omega)) hex n (by omega)
    simp only [ih2]
    simp [List.range_succ_eq_map, List.map_map, Function.comp]

/-- When every invocation up to the fuel bound is rate-limited, the loop
is still running after `fuel` iterations, having slept once per rejection:
the `while True` loop has no retry cap and terminates only when an
invocation stops raising `RateLimitException`. -/
theorem sleep_and_retry_all_rejected {ε α : Type} (fuel : ℕ) :
    ∀ (f : ℕ → GateOutcome ε α) (g : ℕ → ℚ),
      (∀ j < fuel, f j = .rateLimitExn (g j)) →
      sleep_and_retry f fuel = ((List.range fuel).map g, none) := by
  induction fuel with
  | zero =>
    intro f g h
    simp [sleep_and_retry]
  | succ n ih =>
    intro f g hrej
    rw [sleep_and_retry, hrej 0 (by omega)]
    have ih2 := ih (fun j => f (j + 1)) (fun j => g (j + 1))
      (fun j hj => hrej (j + 1) (by omega))
    simp only [ih2]
    simp [List.range_succ_eq_map, List.map_map, Function.comp]

/-- C2: a `RateLimitException`-shaped outcome never escapes the retry
wrapper to the original caller — any outcome the loop returns is not
`rateLimitExn` — while a domain error raised by the wrapped operation
itself propagates unchanged on the very invocation where it occurs, never
caught, reinterpreted, or retried. -/
theorem C2_rateLimitExn_never_escapes {ε α : Type}
    (f : ℕ → GateOutcome ε α) :
    (∀ fuel o, (sleep_and_retry f fuel).2 = some o →
      o.isRateLimitExn = false) ∧
    (∀ (k : ℕ) (g : ℕ → ℚ) (e : ε),
      (∀ j < k, f j = .rateLimitExn (g j)) → f k = .opError e →
      ∀ fuel, k < fuel →
      (sleep_and_retry f fuel).2 = some (.opError e)) := by
  constructor
  · exact fun fuel o h => sleep_and_retry_result_not_rateLimit f fuel o h
  · intro k g e hrej hk fuel hf
    have hfe := sleep_and_retry_first_exit k f g hrej (by rw [hk]; rfl)
      fuel hf
    rw [hfe]
    simp [hk]

/-- Witness for C2: a function that fails with domain error 7 on its first
invocation; the retry gate returns that error unchanged. -/
theorem C2_witness :
    (sleep_and_retry (fun _ => (GateOutcome.opError 7 : GateOutcome ℕ ℕ))
      1).2 = some (.opError 7) :=
  (C2_rateLimitExn_never_escapes
    (fun _ => (GateOutcome.opError 7 : GateOutcome ℕ ℕ))).2
    0 (fun _ => 0) 7 (fun j hj => absurd hj (Nat.not_lt_zero j)) rfl 1
    (by decide)

/-- C5: on each rejection the duration passed to the sleep primitive is
exactly the `time_remaining` carried by that rejection, in order; the loop
returns only when an invocation stops raising `RateLimitException`, and it
has no iteration cap: if every invocation within the fuel bound is
rate-limited, the loop is still running at that bound, for every bound. -/
theorem C5_sleeps_exact_and_loop_unbounded {ε α : Type}
    (f : ℕ → GateOutcome ε α) (g : ℕ → ℚ) :
    (∀ k, (∀ j < k, f j = .rateLimitExn (g j)) →
      (f k).isRateLimitExn = false → ∀ fuel, k < fuel →
      sleep_and_retry f fuel = ((List.range k).map g, some (f k))) ∧
    (∀ fuel, (∀ j < fuel, f j = .rateLimitExn (g j)) →
      sleep_and_retry f fuel = ((List.range fuel).map g, none)) :=
  ⟨fun k hrej hex fuel hf =>
      sleep_and_retry_first_exit k f g hrej hex fuel hf,
   fun fuel hrej => sleep_and_retry_all_rejected fuel f g hrej⟩

/-- Witness for C5: a function that is rate-limited forever with
`time_remaining = 5`: after 3 iterations the gate has slept 5 three times
and is still looping. -/
theorem C5_witness :
    sleep_and_retry
      (fun _ => (GateOutcome.rateLimitExn 5 : GateOutcome ℕ ℕ)) 3 =
      ((List.range 3).map (fun _ => (5 : ℚ)), none) :=
  (C5_sleeps_exact_and_loop_unbounded
    (fun _ => (GateOutcome.rateLimitExn 5 : GateOutcome ℕ ℕ))
    (fun _ => 5)).2 3 (fun j hj => rfl)

/-- C10: combining `raise_on_limit = False` with `sleep_and_retry` defeats
the retry layer: on exhaustion the gated call returns `None` instead of
raising, so the loop returns on its first iteration with no sleep, no
retry, and the wrapped operation never executed. -/
theorem C10_swallow_defeats_retry {ε α : Type} (s : RateLimit)
    (times : ℕ → ℚ × ℚ) (func : Except ε α) (fuel : ℕ)
    (hr : s.raise_on_limit = false)
    (hex : s.num_calls + 1 > s.calls)
    (hwin : (times 0).1 - s.last_reset < s.interval) :
    sleep_and_retry (gateOutcomeAt s times func) (fuel + 1) =
      ([], some .noneRet) := by
  have h0 : gateOutcomeAt s times func 0 = .noneRet := by
    simp only [gateOutcomeAt, gateStateAt]
    rw [wrapper_swallow s (times 0).1 (times 0).2 func hr hex hwin]
  rw [sleep_and_retry, h0]

/-- Witness for C10: an exhausted limiter (`calls = 1`, one call already
counted) with `raise_on_limit = false` under the retry gate: the combined
call yields `None` immediately, with no sleeps recorded. -/
theorem C10_witness :
    sleep_and_retry
      (gateOutcomeAt (⟨1, 10, false, 0, 1⟩ : RateLimit) (fun _ => (0, 0))
        (Except.ok 0 : Except ℕ ℕ)) 1 = ([], some .noneRet) :=
  C10_swallow_defeats_retry (⟨1, 10, false, 0, 1⟩ : RateLimit)
    (fun _ => (0, 0)) (Except.ok 0) 0 rfl (by decide) (by simp)
